import Mathlib

/-!
Verification development for the RTSPlay RTSP-to-GStreamer player
(`src/main.rs`).  The program connects to an RTSP server, feeds raw RTP
packets into an `appsrc` element, demultiplexes by payload type through
`rtpptdemux`, and lazily builds a decode branch per payload type.

The shallow embedding below models, directly from the source:
  * the per-packet capability (caps) construction (main.rs lines 201-220),
  * the `new-payload-type` signal handler of `rtpptdemux`
    (main.rs lines 130-167), including its launch-string lookup,
  * the `tokio::select!` event merge loop (main.rs lines 184-247) as a
    deterministic function of the merged event sequence, with oracles for
    the fallible sink operations,
  * the `gst_app_src_set_caps` capability deduplication performed by the
    external `appsrc` element (a collaborator, not part of this repository),
    used to relate the raw `set_caps` calls to effective capability updates.

Machine integers are modelled as `Nat`/`Int` with explicit two's-complement
casts where the source casts (`as i32`).
-/

/-- Models Rust's `str::to_uppercase` (main.rs line 208) restricted to the
ASCII codec names that occur in RTP encoding names: uppercase every
character. -/
def rustToUppercase (s : String) : String :=
  ⟨s.data.map Char.toUpper⟩

/-- The two's-complement reinterpretation performed by Rust's `as i32` on a
`u32` value (main.rs line 202): values below `2^31` are unchanged, larger
values wrap to negative. -/
def i32ofU32 (n : Nat) : Int :=
  if n < 2 ^ 31 then (n : Int) else (n : Int) - 2 ^ 32

/-- A GStreamer caps field value, restricted to the field types the program
writes: `gst` integers (`i32`) and strings. -/
inductive GVal
  | int (n : Int)
  | str (s : String)
  deriving DecidableEq, Repr

/-- One caps structure: a name plus ordered named fields, as built by
`gst::Caps::builder` (main.rs lines 204-216). -/
structure CapsS where
  name : String
  fields : List (String × GVal)
  deriving DecidableEq, Repr

/-- A caps value: an ordered list of structures.  The program only ever
builds caps with a single structure. -/
structure Caps where
  structures : List CapsS
  deriving DecidableEq, Repr

/-- Field lookup inside a caps structure, first match by key. -/
def getField (s : CapsS) (k : String) : Option GVal :=
  (s.fields.find? (fun p => p.fst == k)).map (fun p => p.snd)

/-- Models `structure.get::<&str>(key)`: succeeds only when the field is
present and holds a string (main.rs line 141). -/
def getStr (s : CapsS) (k : String) : Option String :=
  match getField s k with
  | some (GVal.str v) => some v
  | _ => none

/-- Models `structure.get::<i32>(key)`-style access to an integer field. -/
def getInt (s : CapsS) (k : String) : Option Int :=
  match getField s k with
  | some (GVal.int v) => some v
  | _ => none

/-- Integer field lookup in the first structure of a caps value. -/
def capsGetInt (c : Caps) (k : String) : Option Int :=
  c.structures.head?.bind (fun s => getInt s k)

/-- String field lookup in the first structure of a caps value. -/
def capsGetStr (c : Caps) (k : String) : Option String :=
  c.structures.head?.bind (fun s => getStr s k)

/-- The sub-stream metadata the loop reads from `session.streams()[i]`
(retina's negotiated stream description): media kind, encoding name, RTP
payload type (a `u8`), and optional channel count (a `NonZeroU16`, carried
here as a `Nat` with its range stated as hypotheses where relevant). -/
structure SubStreamDescriptor where
  media : String
  encoding_name : String
  rtp_payload_type : Nat
  channels : Option Nat
  deriving DecidableEq, Repr

/-- The per-packet caps construction of main.rs lines 201-216: clock rate
from the packet timestamp cast `as i32`, payload type cast `as i32`, media
kind, uppercased encoding name, and — when the stream has a channel count —
the channel count cast `as i32` appended last.  `clockRate` is the `u32`
inside the packet's `NonZeroU32` clock rate. -/
def buildCaps (clockRate : Nat) (stream : SubStreamDescriptor) : Caps :=
  let base := [(("clock-rate"), GVal.int (i32ofU32 clockRate)),
               (("payload"), GVal.int (stream.rtp_payload_type : Int)),
               (("media"), GVal.str stream.media),
               (("encoding-name"), GVal.str (rustToUppercase stream.encoding_name))]
  let fs := match stream.channels with
            | some ch => base ++ [(("channels"), GVal.int (ch : Int))]
            | none => base
  ⟨[⟨("application/x-rtp"), fs⟩]⟩

/-- The caps installed on the appsrc before the loop starts (main.rs line
120): `application/x-rtp` with no fields. -/
def initialCaps : Caps :=
  ⟨[⟨("application/x-rtp"), []⟩]⟩

/-- The launch description selected for encoding name `H264`
(main.rs lines 146-150). -/
def h264Launch : String :=
  "rtph264depay ! h264parse update-timecode=true ! vaapidecodebin ! videoconvert ! autovideosink"

/-- The fallback launch description for every other encoding name
(main.rs line 152): a single `fakesink` stage that consumes and drops all
data. -/
def discardLaunch : String :=
  "fakesink"

/-- The launch-string selection of the `new-payload-type` handler
(main.rs lines 144-153): an exact match on the string `H264`, everything
else falls to `fakesink`. -/
def lookupLaunch (encoding_name : String) : String :=
  if encoding_name = ("H264") then h264Launch else discardLaunch

/-- The recipe table as the spec describes it (§4.4): the set of codec
names for which the program has a dedicated launch description.  Only
`H264` is mapped; everything else uses the default discard recipe. -/
def recipeTable : List (String × String) :=
  [(("H264"), h264Launch)]

/-- The end-to-end recipe selection for a codec name taken from stream
metadata: the caps builder canonicalizes the name to uppercase (main.rs
line 208) before it reaches the handler's lookup. -/
def recipeForCodec (codec : String) : String :=
  lookupLaunch (rustToUppercase codec)

/-- The payload of a `new-payload-type` structural notification: the
payload-type id (`u32`) and the caps of the new pad.  `pad.caps()` returns
`Option`, `None` when the pad has no current caps (main.rs line 136). -/
structure PadNotification where
  pt : Nat
  padCaps : Option Caps
  deriving Repr

/-- Oracles for the fallible GStreamer operations the handler `.unwrap()`s:
whether `parse_bin_from_description` succeeds for a given launch string,
and whether `pipeline.add`, `pad.link` and `bin.set_state(Playing)`
succeed. -/
structure GraphOps where
  parseOk : String → Bool
  addOk : Bool
  linkOk : Bool
  playOk : Bool

/-- Outcome of one run of the `new-payload-type` handler closure.
`aborted` models a Rust panic from one of the `.unwrap()` calls — the
process aborts.  `installed` means the branch with the given launch string
was built, linked and set to Playing, and the closure returned `None` (the
closure's only return value; it has no way to raise an error to the
caller).  `skipped` means the weak pipeline reference failed to upgrade, so
no branch was built. -/
inductive HandlerOutcome
  | aborted (what : String)
  | installed (launch : String)
  | skipped (launch : String)
  deriving DecidableEq, Repr

/-- The `new-payload-type` handler closure (main.rs lines 130-167).
Faithful order: `pad.set_offset` first (a pure side effect on the pad, not
modelled further), then `pad.caps().unwrap()`, `caps.structure(0).unwrap()`,
`s.get::<&str>("encoding-name").unwrap()`, the launch-string match, the
weak-reference upgrade, and then `parse_bin_from_description(..).unwrap()`,
`pipeline.add(..).unwrap()`, `pad.link(..).unwrap()`,
`bin.set_state(Playing).unwrap()`. -/
def newPayloadTypeHandler (ops : GraphOps) (pipelineAlive : Bool)
    (n : PadNotification) : HandlerOutcome :=
  match n.padCaps with
  | none => .aborted ("pad.caps")
  | some caps =>
    match caps.structures.head? with
    | none => .aborted ("caps.structure 0")
    | some s =>
      match getStr s ("encoding-name") with
      | none => .aborted ("encoding-name")
      | some enc =>
        let launch := lookupLaunch enc
        if pipelineAlive then
          if ops.parseOk launch then
            if ops.addOk then
              if ops.linkOk then
                if ops.playOk then .installed launch
                else .aborted ("bin.set_state")
              else .aborted ("pad.link")
            else .aborted ("pipeline.add")
          else .aborted ("parse_bin_from_description")
        else .skipped launch

/-- Whether a handler outcome is a process abort (Rust panic). -/
def isAborted : HandlerOutcome → Bool
  | .aborted _ => true
  | _ => false

/-- The malformedness conditions under which the handler's three leading
`.unwrap()` calls fail: no caps on the pad, caps with no structure, or a
first structure whose `encoding-name` field is missing or not a string. -/
def malformedCaps : Option Caps → Bool
  | none => true
  | some c =>
    match c.structures.head? with
    | none => true
    | some s => (getStr s ("encoding-name")).isNone

/-- A GraphOps oracle on which every operation succeeds. -/
def allOkOps : GraphOps :=
  ⟨fun _ => true, true, true, true⟩

/-- A GraphOps oracle on which `parse_bin_from_description` fails
(malformed topology description / missing element factory) and everything
else succeeds. -/
def failParseOps : GraphOps :=
  ⟨fun _ => false, true, true, true⟩

/-- Caps as they appear on a new `rtpptdemux` pad for an H264 stream. -/
def h264PadCaps : Caps :=
  ⟨[⟨("application/x-rtp"), [(("encoding-name"), GVal.str ("H264"))]⟩]⟩

/-- One item yielded by `session.next()` inside `Some(Ok(..))`
(main.rs lines 188, 225): an RTP packet (raw bytes, stream index, and the
`u32` inside the packet timestamp's `NonZeroU32` clock rate) or a sender
report.  Other `PacketItem` variants are `unreachable!()` in the source and
are not modelled. -/
inductive PacketItem
  | rtpPacket (streamId : Nat) (raw : List Nat) (clockRate : Nat)
  | senderReport
  deriving DecidableEq, Repr

/-- One step of the packet feed `session.next()`:
`Some(Ok(item))`, `Some(Err(e))`, or `None` (feed exhausted). -/
inductive FeedItem
  | item (p : PacketItem)
  | err (e : String)
  | closed
  deriving DecidableEq, Repr

/-- A message view on the pipeline bus (main.rs lines 237-241):
end-of-stream, an error with its cause, or any other message. -/
inductive BusMsg
  | eos
  | busError (cause : String)
  | other
  deriving DecidableEq, Repr

/-- One resolved iteration of the `tokio::select!` race (main.rs line 185):
either the feed arm or the bus arm won, with the value it yielded.  A bus
value of `none` is the bus stream having ended (channel closed). -/
inductive LoopEvent
  | feed (f : FeedItem)
  | bus (m : Option BusMsg)
  deriving DecidableEq, Repr

/-- A raw call made on the appsrc by the loop body, in program order:
`set_caps` (main.rs line 218), `push_buffer` (line 222),
`end_of_stream` (line 227). -/
inductive SinkCall
  | setCaps (c : Caps)
  | push (raw : List Nat)
  | endOfStream
  deriving DecidableEq, Repr

/-- Why the loop stopped.  `normalEndOfStream` covers the three `break`
paths; `feedError` is `Some(Err(e)) => return Err(..)` (line 224);
`graphError` is `MessageView::Error => bail!` (line 239); `sinkError` is a
`?`-propagated failure of a fallible appsrc/buffer operation; `aborted`
models a panic (out-of-bounds stream index at line 191). -/
inductive StopReason
  | normalEndOfStream
  | feedError (e : String)
  | graphError (cause : String)
  | sinkError (op : String)
  | aborted (what : String)
  deriving DecidableEq, Repr

/-- How control left the loop: `viaBreak` falls through to
`pipeline.set_state(Null)` at line 249; `earlyReturn` is a `return`,
`bail!` or `?` that leaves `main` before line 249; `panicked` aborts the
process. -/
inductive ExitKind
  | viaBreak
  | earlyReturn
  | panicked
  deriving DecidableEq, Repr

/-- Oracles for the fallible per-packet operations, indexed by how many
packets were processed before: `allocOk n` is `gst::Buffer::with_size`
succeeding for the n-th packet (line 193), `pushOk n` is `push_buffer`
succeeding for the n-th packet (line 222), `eosOk` is `end_of_stream`
succeeding (line 227).  `buffer.copy_from_slice` (line 198) cannot fail
because the buffer was allocated with exactly `raw.len()` bytes, so it is
not given an oracle. -/
structure SinkBehavior where
  allocOk : Nat → Bool
  pushOk : Nat → Bool
  eosOk : Bool

/-- A sink on which every operation succeeds. -/
def allOkSink : SinkBehavior :=
  ⟨fun _ => true, fun _ => true, true⟩

/-- The event merge loop (main.rs lines 184-247) as a function of the
sequence of resolved select! events.  Returns the stop reason with its exit
kind (or `none` if the event trace ran out while the loop was still
running, i.e. still blocked in select!), together with the list of raw
appsrc calls the loop made, in order.  `n` counts packets processed so far
(the oracle index). -/
def runLoop (streams : List SubStreamDescriptor) (sink : SinkBehavior) :
    List LoopEvent → Nat → Option (StopReason × ExitKind) × List SinkCall
  | [], _ => (none, [])
  | .feed (.item (.rtpPacket sid raw rate)) :: rest, n =>
    match streams[sid]? with
    | none => (some (.aborted ("stream index"), .panicked), [])
    | some stream =>
      if sink.allocOk n then
        let caps := buildCaps rate stream
        if sink.pushOk n then
          let r := runLoop streams sink rest (n + 1)
          (r.fst, .setCaps caps :: .push raw :: r.snd)
        else
          (some (.sinkError ("push_buffer"), .earlyReturn),
           [.setCaps caps, .push raw])
      else
        (some (.sinkError ("buffer_alloc"), .earlyReturn), [])
  | .feed (.item .senderReport) :: rest, n => runLoop streams sink rest n
  | .feed (.err e) :: _, _ => (some (.feedError e, .earlyReturn), [])
  | .feed .closed :: _, _ =>
    if sink.eosOk then (some (.normalEndOfStream, .viaBreak), [.endOfStream])
    else (some (.sinkError ("end_of_stream"), .earlyReturn), [.endOfStream])
  | .bus (some .eos) :: _, _ => (some (.normalEndOfStream, .viaBreak), [])
  | .bus (some (.busError c)) :: _, _ => (some (.graphError c, .earlyReturn), [])
  | .bus (some .other) :: rest, n => runLoop streams sink rest n
  | .bus none :: _, _ => (some (.normalEndOfStream, .viaBreak), [])

/-- The stop reason of a loop run, if it stopped. -/
def loopReason (r : Option (StopReason × ExitKind) × List SinkCall) :
    Option StopReason :=
  r.fst.map (fun p => p.fst)

/-- The exit kind of a loop run, if it stopped. -/
def loopExit (r : Option (StopReason × ExitKind) × List SinkCall) :
    Option ExitKind :=
  r.fst.map (fun p => p.snd)

/-- The raw appsrc calls of a loop run. -/
def loopCalls (r : Option (StopReason × ExitKind) × List SinkCall) :
    List SinkCall :=
  r.snd

/-- Whether the code after the loop transitions the pipeline to `Null` for
a given exit kind: `pipeline.set_state(Null)` at main.rs line 249 runs only
when the loop was left by `break`; early returns and panics skip it. -/
def pipelineSetToNull : ExitKind → Bool
  | .viaBreak => true
  | _ => false

/-- Number of `end_of_stream` calls in a call trace. -/
def countEos : List SinkCall → Nat
  | [] => 0
  | .endOfStream :: rest => countEos rest + 1
  | _ :: rest => countEos rest

/-- True when no `push` call occurs after the first `end_of_stream` call. -/
def noPushAfterEos : List SinkCall → Bool
  | [] => true
  | .endOfStream :: rest =>
    rest.all (fun c => match c with | .push _ => false | _ => true)
  | _ :: rest => noPushAfterEos rest

/-- Strong trace shape invariant: if `end_of_stream` occurs, it is the very
last call. -/
def eosOnlyLast : List SinkCall → Bool
  | [] => true
  | .endOfStream :: rest => rest.isEmpty
  | _ :: rest => eosOnlyLast rest

/-- Whether an event is well-formed with respect to the stream table: an
RTP packet must carry a stream index that `session.streams()` covers
(retina guarantees this; an out-of-range index would panic at line 191). -/
def eventOk (streams : List SubStreamDescriptor) : LoopEvent → Bool
  | .feed (.item (.rtpPacket sid _ _)) => sid < streams.length
  | _ => true

/-- An effective event reaching the graph: a capability (re)configuration,
a pushed buffer, or the end-of-stream signal. -/
inductive Effect
  | configure (c : Caps)
  | push (raw : List Nat)
  | eosSignal
  deriving DecidableEq, Repr

/-- Models the external `gst_app_src_set_caps` deduplication (appsrc is a
collaborator element, not code of this repository): a `set_caps` call emits
a capability change downstream only when the new caps differ from the
current ones, which it then replaces.  `cur` is the appsrc's current caps,
set to `application/x-rtp` (no fields) before the loop starts (line 120). -/
def appSrcConfigures (cur : Caps) : List SinkCall → List Effect
  | [] => []
  | .setCaps c :: rest =>
    if c = cur then appSrcConfigures cur rest
    else .configure c :: appSrcConfigures c rest
  | .push raw :: rest => .push raw :: appSrcConfigures cur rest
  | .endOfStream :: rest => .eosSignal :: appSrcConfigures cur rest

/-- Modelled from the spec (§4.2, §4.5): the effect discipline the spec
prescribes for the loop — for each DataPacket, build the CapabilityDescriptor
fresh, `configure` it exactly when it differs from the previously configured
one (`none` initially, so the very first packet always configures), then
`push`; on feed exhaustion, `finish` once.  Control flow (termination,
oracle failures) mirrors the loop so that only the configure discipline is
being compared. -/
def specLoopEffects (streams : List SubStreamDescriptor) (sink : SinkBehavior) :
    List LoopEvent → Nat → Option Caps → List Effect
  | [], _, _ => []
  | .feed (.item (.rtpPacket sid raw rate)) :: rest, n, cur =>
    match streams[sid]? with
    | none => []
    | some stream =>
      if sink.allocOk n then
        let d := buildCaps rate stream
        let pre := if cur = some d then [Effect.push raw]
                   else [Effect.configure d, Effect.push raw]
        if sink.pushOk n then pre ++ specLoopEffects streams sink rest (n + 1) (some d)
        else pre
      else []
  | .feed (.item .senderReport) :: rest, n, cur =>
    specLoopEffects streams sink rest n cur
  | .feed (.err _) :: _, _, _ => []
  | .feed .closed :: _, _, _ => [.eosSignal]
  | .bus (some .eos) :: _, _, _ => []
  | .bus (some (.busError _)) :: _, _, _ => []
  | .bus (some .other) :: rest, n, cur => specLoopEffects streams sink rest n cur
  | .bus none :: _, _, _ => []

/-- Modelled from the spec (§4.5, §8): the classification of the first
terminating event of a trace — `normal` for feed `End`, bus `EndOfStream`
or bus channel closure; `feedErr`/`graphErr` for the two error events;
`stillRunning` when no terminating event occurs. -/
inductive TermClass
  | stillRunning
  | normal
  | feedErr (e : String)
  | graphErr (cause : String)
  deriving DecidableEq, Repr

/-- Modelled from the spec (§4.5): scan the merged event trace for the
first terminating event. -/
def specTermination : List LoopEvent → TermClass
  | [] => .stillRunning
  | .feed .closed :: _ => .normal
  | .bus (some .eos) :: _ => .normal
  | .bus none :: _ => .normal
  | .feed (.err e) :: _ => .feedErr e
  | .bus (some (.busError c)) :: _ => .graphErr c
  | .feed (.item _) :: rest => specTermination rest
  | .bus (some .other) :: rest => specTermination rest

/-- Caps as they appear on a new `rtpptdemux` pad for an unknown codec. -/
def xyzPadCaps : Caps :=
  ⟨[⟨("application/x-rtp"), [(("encoding-name"), GVal.str ("XYZ"))]⟩]⟩

/-- A stream descriptor used in concrete evaluations. -/
def c9Stream : SubStreamDescriptor :=
  ⟨("video"), ("h264"), 96, none⟩

/-- A stream descriptor with a channel count, used in concrete evaluations. -/
def c9WitnessStream : SubStreamDescriptor :=
  ⟨("audio"), ("opus"), 97, some 2⟩

theorem capsGetStr_elim {caps : Caps} {k v : String}
    (h : capsGetStr caps k = some v) :
    ∃ s, caps.structures.head? = some s ∧ getStr s k = some v := by
  unfold capsGetStr at h
  cases hh : caps.structures.head? with
  | none => rw [hh] at h; simp at h
  | some s => rw [hh] at h; simp at h; exact ⟨s, rfl, h⟩

/-- C8 counterexample: the handler's recipe lookup itself is
case-SENSITIVE — the encoding names `h264` and `H264`, which differ only in
letter case, select different recipes (discard vs. the H264 chain), so the
claim as stated about the lookup is false. -/
theorem c8_counterexample_lookup_case_sensitive :
    lookupLaunch ("h264") = discardLaunch ∧ lookupLaunch ("H264") = h264Launch ∧
      discardLaunch ≠ h264Launch := by
  refine ⟨by decide, by decide, by decide⟩

/-- C8 amended: the lookup in the handler is a case-sensitive exact match
against the uppercase name `H264`; recipe selection is case-insensitive
only end-to-end, because the capability builder canonicalizes codec names
to uppercase (main.rs line 208) before they reach the lookup: any two
codec names with the same uppercasing select the same recipe. -/
theorem c8_recipe_selection_case_insensitive_after_canonicalization
    (c₁ c₂ : String) (h : rustToUppercase c₁ = rustToUppercase c₂) :
    recipeForCodec c₁ = recipeForCodec c₂ := by
  unfold recipeForCodec
  rw [h]

/-- C8 witness: the amended theorem at the concrete pair `h264` / `H264`. -/
theorem c8_witness :
    rustToUppercase ("h264") = rustToUppercase ("H264") ∧
      recipeForCodec ("h264") = recipeForCodec ("H264") :=
  ⟨by decide,
   c8_recipe_selection_case_insensitive_after_canonicalization
     ("h264") ("H264") (by decide)⟩

/-- C1 counterexample: when `parse_bin_from_description` fails for the
looked-up recipe, the handler panics (the process aborts) — it does not
install a discard branch, log and continue as the claim states. -/
theorem c1_counterexample_parse_failure_panics :
    newPayloadTypeHandler failParseOps true ⟨96, some h264PadCaps⟩ =
      HandlerOutcome.aborted ("parse_bin_from_description") := by
  decide

/-- C1 amended: if constructing the branch's sub-graph from the looked-up
recipe fails, the handler `.unwrap()`s the failure and panics, aborting the
whole process; no discard branch is installed and the failure is not
contained to the payload-type id. -/
theorem c1_construction_failure_aborts (ops : GraphOps) (pt : Nat)
    (caps : Caps) (enc : String)
    (h : capsGetStr caps ("encoding-name") = some enc)
    (hfail : ops.parseOk (lookupLaunch enc) = false) :
    newPayloadTypeHandler ops true ⟨pt, some caps⟩ =
      HandlerOutcome.aborted ("parse_bin_from_description") := by
  obtain ⟨s, hh, hs⟩ := capsGetStr_elim h
  simp [newPayloadTypeHandler, hh, hs, hfail]

/-- C1 witness: the amended theorem at a concrete H264 notification with a
failing parse. -/
theorem c1_witness :
    capsGetStr h264PadCaps ("encoding-name") = some ("H264") ∧
      failParseOps.parseOk (lookupLaunch ("H264")) = false ∧
      newPayloadTypeHandler failParseOps true ⟨97, some h264PadCaps⟩ =
        HandlerOutcome.aborted ("parse_bin_from_description") :=
  ⟨by decide, by decide,
   c1_construction_failure_aborts failParseOps 97 h264PadCaps ("H264")
     (by decide) (by decide)⟩

/-- C7: for every codec name absent from the recipe table, the handler
(with a live pipeline and succeeding graph operations) installs the
discard (`fakesink`) branch, and no error is raised to the caller — the
closure's outcome is `installed`, and its only possible return value is
`None`. -/
theorem c7_unknown_codec_installs_discard (ops : GraphOps) (pt : Nat)
    (caps : Caps) (enc : String)
    (h : capsGetStr caps ("encoding-name") = some enc)
    (habsent : recipeTable.lookup enc = none)
    (hparse : ops.parseOk discardLaunch = true) (hadd : ops.addOk = true)
    (hlink : ops.linkOk = true) (hplay : ops.playOk = true) :
    newPayloadTypeHandler ops true ⟨pt, some caps⟩ =
      HandlerOutcome.installed discardLaunch := by
  have hne : enc ≠ ("H264") := by
    intro he
    subst he
    simp [recipeTable, List.lookup] at habsent
  have hl : lookupLaunch enc = discardLaunch := by
    simp [lookupLaunch, hne]
  obtain ⟨s, hh, hs⟩ := capsGetStr_elim h
  simp [newPayloadTypeHandler, hh, hs, hl, hparse, hadd, hlink, hplay]

/-- C7 witness: the theorem at the concrete unknown codec `XYZ`. -/
theorem c7_witness :
    recipeTable.lookup ("XYZ") = none ∧
      newPayloadTypeHandler allOkOps true ⟨98, some xyzPadCaps⟩ =
        HandlerOutcome.installed discardLaunch :=
  ⟨by decide,
   c7_unknown_codec_installs_discard allOkOps 98 xyzPadCaps ("XYZ")
     (by decide) (by decide) rfl rfl rfl rfl⟩

/-- C10: the handler requires the notified pad to carry caps whose first
structure has a string-valued `encoding-name` field; when the caps are
absent, have no structure, or the field is missing or not a string, one of
the three leading `.unwrap()`s fails and the handler panics (process
abort) instead of degrading to a discard branch. -/
theorem c10_malformed_caps_panics (ops : GraphOps) (alive : Bool) (pt : Nat)
    (oc : Option Caps) (h : malformedCaps oc = true) :
    isAborted (newPayloadTypeHandler ops alive ⟨pt, oc⟩) = true := by
  cases oc with
  | none => rfl
  | some c =>
    cases hh : c.structures.head? with
    | none => simp [newPayloadTypeHandler, hh, isAborted]
    | some s =>
      simp [malformedCaps, hh, Option.isNone_iff_eq_none] at h
      simp [newPayloadTypeHandler, hh, h, isAborted]

/-- C10 witness: the theorem at a notification whose pad has no caps. -/
theorem c10_witness :
    malformedCaps (none : Option Caps) = true ∧
      isAborted (newPayloadTypeHandler allOkOps true ⟨99, none⟩) = true :=
  ⟨rfl, c10_malformed_caps_panics allOkOps true 99 none rfl⟩

/-- C9 counterexample: the clock rate is NOT always carried as a positive
integer — the `as i32` cast at main.rs line 202 wraps a clock rate of
`2^31` (a valid `NonZeroU32`) to `-2^31`, which the built caps carry as a
negative `clock-rate` field. -/
theorem c9_counterexample_clock_rate_wraps_negative :
    1 ≤ 2 ^ 31 ∧ 2 ^ 31 < 2 ^ 32 ∧
      capsGetInt (buildCaps (2 ^ 31) c9Stream) ("clock-rate") =
        some (-(2 ^ 31) : Int) ∧
      ¬(0 < (-(2 ^ 31) : Int)) := by
  refine ⟨by decide, by decide, by decide, by decide⟩

/-- C9 amended: for clock rates below `2^31` the caps carry the clock rate
unchanged (hence positive, since it is nonzero); the codec name is carried
uppercased; and a present channel count (nonzero, per `NonZeroU16`) is
carried unchanged and positive.  At or above `2^31` the cast wraps the
clock rate to a negative value (see the counterexample). -/
theorem c9_caps_numeric_semantics (rate : Nat) (stream : SubStreamDescriptor)
    (h1 : 1 ≤ rate) (h2 : rate < 2 ^ 31) :
    capsGetInt (buildCaps rate stream) ("clock-rate") = some (rate : Int) ∧
      0 < (rate : Int) ∧
      capsGetStr (buildCaps rate stream) ("encoding-name") =
        some (rustToUppercase stream.encoding_name) ∧
      (∀ ch, stream.channels = some ch → 1 ≤ ch →
        capsGetInt (buildCaps rate stream) ("channels") = some (ch : Int) ∧
          0 < (ch : Int)) := by
  have hi : i32ofU32 rate = (rate : Int) := by
    unfold i32ofU32
    rw [if_pos h2]
  cases hch : stream.channels with
  | none =>
    refine ⟨?_, by exact_mod_cast h1, ?_, ?_⟩
    · have hv : capsGetInt (buildCaps rate stream) ("clock-rate") =
          some (i32ofU32 rate) := by
        simp only [buildCaps, hch]
        rfl
      rw [hv, hi]
    · simp only [buildCaps, hch]
      rfl
    · intro ch hc _
      exact absurd hc (by simp)
  | some ch₀ =>
    refine ⟨?_, by exact_mod_cast h1, ?_, ?_⟩
    · have hv : capsGetInt (buildCaps rate stream) ("clock-rate") =
          some (i32ofU32 rate) := by
        simp only [buildCaps, hch]
        rfl
      rw [hv, hi]
    · simp only [buildCaps, hch]
      rfl
    · intro ch hc hch1
      injection hc with he
      subst he
      constructor
      · simp only [buildCaps, hch]
        rfl
      · exact_mod_cast hch1

/-- C9 witness: the amended theorem at clock rate 48000 and an `opus`
stream with 2 channels. -/
theorem c9_witness :
    capsGetInt (buildCaps 48000 c9WitnessStream) ("clock-rate") =
        some (48000 : Int) ∧
      capsGetStr (buildCaps 48000 c9WitnessStream) ("encoding-name") =
        some ("OPUS") ∧
      capsGetInt (buildCaps 48000 c9WitnessStream) ("channels") =
        some (2 : Int) := by
  have h := c9_caps_numeric_semantics 48000 c9WitnessStream (by decide) (by decide)
  refine ⟨h.1, ?_, (h.2.2.2 2 rfl (by decide)).1⟩
  rw [h.2.2.1]
  decide

theorem runLoop_eosOnlyLast (streams : List SubStreamDescriptor)
    (sink : SinkBehavior) :
    ∀ events n, eosOnlyLast (runLoop streams sink events n).snd = true := by
  intro events
  induction events with
  | nil => intro n; rfl
  | cons e rest ih =>
    intro n
    cases e with
    | feed f =>
      cases f with
      | item p =>
        cases p with
        | rtpPacket sid raw rate =>
          cases hs : streams[sid]? with
          | none => simp [runLoop, hs, eosOnlyLast]
          | some stream =>
            cases ha : sink.allocOk n with
            | false => simp [runLoop, hs, ha, eosOnlyLast]
            | true =>
              cases hp : sink.pushOk n with
              | false => simp [runLoop, hs, ha, hp, eosOnlyLast]
              | true => simp [runLoop, hs, ha, hp, eosOnlyLast, ih]
        | senderReport => simpa [runLoop] using ih n
      | err e => simp [runLoop, eosOnlyLast]
      | closed =>
        cases he : sink.eosOk with
        | false => simp [runLoop, he, eosOnlyLast]
        | true => simp [runLoop, he, eosOnlyLast]
    | bus m =>
      cases m with
      | none => simp [runLoop, eosOnlyLast]
      | some msg =>
        cases msg with
        | eos => simp [runLoop, eosOnlyLast]
        | busError c => simp [runLoop, eosOnlyLast]
        | other => simpa [runLoop] using ih n

theorem countEos_le_one_of_eosOnlyLast :
    ∀ l : List SinkCall, eosOnlyLast l = true → countEos l ≤ 1 := by
  intro l
  induction l with
  | nil => intro _; simp [countEos]
  | cons c rest ih =>
    intro h
    cases c with
    | setCaps cc =>
      simp only [eosOnlyLast] at h
      simpa [countEos] using ih h
    | push raw =>
      simp only [eosOnlyLast] at h
      simpa [countEos] using ih h
    | endOfStream =>
      simp only [eosOnlyLast, List.isEmpty_iff] at h
      subst h
      simp [countEos]

theorem noPushAfterEos_of_eosOnlyLast :
    ∀ l : List SinkCall, eosOnlyLast l = true → noPushAfterEos l = true := by
  intro l
  induction l with
  | nil => intro _; rfl
  | cons c rest ih =>
    intro h
    cases c with
    | setCaps cc =>
      simp only [eosOnlyLast] at h
      simpa [noPushAfterEos] using ih h
    | push raw =>
      simp only [eosOnlyLast] at h
      simpa [noPushAfterEos] using ih h
    | endOfStream =>
      simp only [eosOnlyLast, List.isEmpty_iff] at h
      subst h
      rfl

/-- C3: in every run of the event merge loop — for any stream table, any
sink oracle (so also under push/alloc failures) and any merged event
trace — the loop never calls `push_buffer` after `end_of_stream`, and
calls `end_of_stream` at most once. -/
theorem c3_no_push_after_finish_and_finish_at_most_once
    (streams : List SubStreamDescriptor) (sink : SinkBehavior)
    (events : List LoopEvent) :
    noPushAfterEos (loopCalls (runLoop streams sink events 0)) = true ∧
      countEos (loopCalls (runLoop streams sink events 0)) ≤ 1 :=
  ⟨noPushAfterEos_of_eosOnlyLast _ (runLoop_eosOnlyLast streams sink events 0),
   countEos_le_one_of_eosOnlyLast _ (runLoop_eosOnlyLast streams sink events 0)⟩

/-- C2 counterexample: when the feed yields an error, `main` returns at
line 224 without executing `pipeline.set_state(Null)` at line 249 — the
graph's running state is NOT released on this exit path, so the claim as
stated is false. -/
theorem c2_counterexample_feed_error_skips_stop :
    runLoop [] allOkSink [LoopEvent.feed (FeedItem.err ("boom"))] 0 =
        (some (StopReason.feedError ("boom"), ExitKind.earlyReturn), []) ∧
      pipelineSetToNull ExitKind.earlyReturn = false :=
  ⟨by decide, rfl⟩

/-- C2 amended: the pipeline is transitioned to `Null` exactly on the
`break` exit paths, which are exactly the normal end-of-stream exits; on
feed-error, graph-error and sink-error exits `main` returns early and the
pipeline is never transitioned to a stopped state. -/
theorem c2_pipeline_stopped_only_on_normal_exit
    (streams : List SubStreamDescriptor) (sink : SinkBehavior) :
    ∀ events n r k, (runLoop streams sink events n).fst = some (r, k) →
      (pipelineSetToNull k = true ↔ r = StopReason.normalEndOfStream) := by
  intro events
  induction events with
  | nil => intro n r k h; simp [runLoop] at h
  | cons e rest ih =>
    intro n r k h
    cases e with
    | feed f =>
      cases f with
      | item p =>
        cases p with
        | rtpPacket sid raw rate =>
          cases hs : streams[sid]? with
          | none =>
            simp [runLoop, hs, Prod.ext_iff] at h
            obtain ⟨h1, h2⟩ := h
            subst h1; subst h2
            simp [pipelineSetToNull]
          | some stream =>
            cases ha : sink.allocOk n with
            | false =>
              simp [runLoop, hs, ha, Prod.ext_iff] at h
              obtain ⟨h1, h2⟩ := h
              subst h1; subst h2
              simp [pipelineSetToNull]
            | true =>
              cases hp : sink.pushOk n with
              | false =>
                simp [runLoop, hs, ha, hp, Prod.ext_iff] at h
                obtain ⟨h1, h2⟩ := h
                subst h1; subst h2
                simp [pipelineSetToNull]
              | true =>
                simp [runLoop, hs, ha, hp] at h
                exact ih (n + 1) r k h
        | senderReport =>
          simp [runLoop] at h
          exact ih n r k h
      | err e =>
        simp [runLoop, Prod.ext_iff] at h
        obtain ⟨h1, h2⟩ := h
        subst h1; subst h2
        simp [pipelineSetToNull]
      | closed =>
        cases he : sink.eosOk with
        | false =>
          simp [runLoop, he, Prod.ext_iff] at h
          obtain ⟨h1, h2⟩ := h
          subst h1; subst h2
          simp [pipelineSetToNull]
        | true =>
          simp [runLoop, he, Prod.ext_iff] at h
          obtain ⟨h1, h2⟩ := h
          subst h1; subst h2
          simp [pipelineSetToNull]
    | bus m =>
      cases m with
      | none =>
        simp [runLoop, Prod.ext_iff] at h
        obtain ⟨h1, h2⟩ := h
        subst h1; subst h2
        simp [pipelineSetToNull]
      | some msg =>
        cases msg with
        | eos =>
          simp [runLoop, Prod.ext_iff] at h
          obtain ⟨h1, h2⟩ := h
          subst h1; subst h2
          simp [pipelineSetToNull]
        | busError c =>
          simp [runLoop, Prod.ext_iff] at h
          obtain ⟨h1, h2⟩ := h
          subst h1; subst h2
          simp [pipelineSetToNull]
        | other =>
          simp [runLoop] at h
          exact ih n r k h

/-- C2 witness: the amended theorem at a concrete normal-end-of-stream
run, where the pipeline IS transitioned to Null. -/
theorem c2_witness :
    (runLoop [] allOkSink [LoopEvent.feed FeedItem.closed] 0).fst =
        some (StopReason.normalEndOfStream, ExitKind.viaBreak) ∧
      (pipelineSetToNull ExitKind.viaBreak = true ↔
        StopReason.normalEndOfStream = StopReason.normalEndOfStream) :=
  ⟨by decide,
   c2_pipeline_stopped_only_on_normal_exit [] allOkSink
     [LoopEvent.feed FeedItem.closed] 0 StopReason.normalEndOfStream
     ExitKind.viaBreak (by decide)⟩

theorem runLoop_normal_iff_spec (streams : List SubStreamDescriptor)
    (sink : SinkBehavior) (hpush : ∀ m, sink.pushOk m = true)
    (halloc : ∀ m, sink.allocOk m = true) (heos : sink.eosOk = true) :
    ∀ events n, events.all (eventOk streams) = true →
      (loopReason (runLoop streams sink events n) =
          some StopReason.normalEndOfStream ↔
        specTermination events = TermClass.normal) := by
  intro events
  induction events with
  | nil => intro n _; simp [runLoop, specTermination, loopReason]
  | cons e rest ih =>
    intro n hev
    rw [List.all_cons, Bool.and_eq_true] at hev
    obtain ⟨he, hrest⟩ := hev
    cases e with
    | feed f =>
      cases f with
      | item p =>
        cases p with
        | rtpPacket sid raw rate =>
          simp [eventOk] at he
          cases hs : streams[sid]? with
          | none =>
            rw [List.getElem?_eq_none_iff] at hs
            omega
          | some stream =>
            have := ih (n + 1) hrest
            simpa [runLoop, hs, halloc n, hpush n, specTermination,
              loopReason] using this
        | senderReport =>
          simpa [runLoop, specTermination] using ih n hrest
      | err e => simp [runLoop, specTermination, loopReason]
      | closed => simp [runLoop, heos, specTermination, loopReason]
    | bus m =>
      cases m with
      | none => simp [runLoop, specTermination, loopReason]
      | some msg =>
        cases msg with
        | eos => simp [runLoop, specTermination, loopReason]
        | busError c => simp [runLoop, specTermination, loopReason]
        | other => simpa [runLoop, specTermination] using ih n hrest

/-- C4: when the loop's own sink operations succeed (push, buffer
allocation and end-of-stream — their failures are the separate
sink-failure exits) and every packet carries a valid stream index, the
loop terminates with `NormalEndOfStream` if and only if the first
terminating event of the merged trace is the feed yielding `End`, the bus
yielding `EndOfStream`, or the bus channel closing; and no run calls
`end_of_stream` (finish) more than once. -/
theorem c4_normal_termination_characterization
    (streams : List SubStreamDescriptor) (sink : SinkBehavior)
    (events : List LoopEvent) (hpush : ∀ m, sink.pushOk m = true)
    (halloc : ∀ m, sink.allocOk m = true) (heos : sink.eosOk = true)
    (hev : events.all (eventOk streams) = true) :
    (loopReason (runLoop streams sink events 0) =
        some StopReason.normalEndOfStream ↔
      specTermination events = TermClass.normal) ∧
      countEos (loopCalls (runLoop streams sink events 0)) ≤ 1 :=
  ⟨runLoop_normal_iff_spec streams sink hpush halloc heos events 0 hev,
   countEos_le_one_of_eosOnlyLast _ (runLoop_eosOnlyLast streams sink events 0)⟩

/-- C4 witness: the theorem at a concrete trace whose status bus closes. -/
theorem c4_witness :
    (loopReason (runLoop [] allOkSink [LoopEvent.bus none] 0) =
        some StopReason.normalEndOfStream ↔
      specTermination [LoopEvent.bus none] = TermClass.normal) ∧
      countEos (loopCalls (runLoop [] allOkSink [LoopEvent.bus none] 0)) ≤ 1 :=
  c4_normal_termination_characterization [] allOkSink [LoopEvent.bus none]
    (fun _ => rfl) (fun _ => rfl) rfl (by decide)

theorem runLoop_feedError_of_spec (streams : List SubStreamDescriptor)
    (sink : SinkBehavior) (hpush : ∀ m, sink.pushOk m = true)
    (halloc : ∀ m, sink.allocOk m = true) :
    ∀ events n e, events.all (eventOk streams) = true →
      specTermination events = TermClass.feedErr e →
      (runLoop streams sink events n).fst =
          some (StopReason.feedError e, ExitKind.earlyReturn) ∧
        countEos (runLoop streams sink events n).snd = 0 := by
  intro events
  induction events with
  | nil => intro n e _ ht; simp [specTermination] at ht
  | cons ev rest ih =>
    intro n e hev ht
    rw [List.all_cons, Bool.and_eq_true] at hev
    obtain ⟨he, hrest⟩ := hev
    cases ev with
    | feed f =>
      cases f with
      | item p =>
        cases p with
        | rtpPacket sid raw rate =>
          simp [eventOk] at he
          cases hs : streams[sid]? with
          | none =>
            rw [List.getElem?_eq_none_iff] at hs
            omega
          | some stream =>
            rw [show specTermination
                (LoopEvent.feed (FeedItem.item
                  (PacketItem.rtpPacket sid raw rate)) :: rest) =
                specTermination rest from rfl] at ht
            obtain ⟨h1, h2⟩ := ih (n + 1) e hrest ht
            refine ⟨?_, ?_⟩
            · simpa [runLoop, hs, halloc n, hpush n] using h1
            · simpa [runLoop, hs, halloc n, hpush n, countEos] using h2
        | senderReport =>
          rw [show specTermination
              (LoopEvent.feed (FeedItem.item PacketItem.senderReport) :: rest) =
              specTermination rest from rfl] at ht
          obtain ⟨h1, h2⟩ := ih n e hrest ht
          exact ⟨by simpa [runLoop] using h1, by simpa [runLoop] using h2⟩
      | err e' =>
        simp [specTermination] at ht
        subst ht
        exact ⟨by simp [runLoop], by simp [runLoop, countEos]⟩
      | closed => simp [specTermination] at ht
    | bus m =>
      cases m with
      | none => simp [specTermination] at ht
      | some msg =>
        cases msg with
        | eos => simp [specTermination] at ht
        | busError c => simp [specTermination] at ht
        | other =>
          rw [show specTermination
              (LoopEvent.bus (some BusMsg.other) :: rest) =
              specTermination rest from rfl] at ht
          obtain ⟨h1, h2⟩ := ih n e hrest ht
          exact ⟨by simpa [runLoop] using h1, by simpa [runLoop] using h2⟩

theorem runLoop_graphError_of_spec (streams : List SubStreamDescriptor)
    (sink : SinkBehavior) (hpush : ∀ m, sink.pushOk m = true)
    (halloc : ∀ m, sink.allocOk m = true) :
    ∀ events n c, events.all (eventOk streams) = true →
      specTermination events = TermClass.graphErr c →
      (runLoop streams sink events n).fst =
          some (StopReason.graphError c, ExitKind.earlyReturn) ∧
        countEos (runLoop streams sink events n).snd = 0 := by
  intro events
  induction events with
  | nil => intro n c _ ht; simp [specTermination] at ht
  | cons ev rest ih =>
    intro n c hev ht
    rw [List.all_cons, Bool.and_eq_true] at hev
    obtain ⟨he, hrest⟩ := hev
    cases ev with
    | feed f =>
      cases f with
      | item p =>
        cases p with
        | rtpPacket sid raw rate =>
          simp [eventOk] at he
          cases hs : streams[sid]? with
          | none =>
            rw [List.getElem?_eq_none_iff] at hs
            omega
          | some stream =>
            rw [show specTermination
                (LoopEvent.feed (FeedItem.item
                  (PacketItem.rtpPacket sid raw rate)) :: rest) =
                specTermination rest from rfl] at ht
            obtain ⟨h1, h2⟩ := ih (n + 1) c hrest ht
            refine ⟨?_, ?_⟩
            · simpa [runLoop, hs, halloc n, hpush n] using h1
            · simpa [runLoop, hs, halloc n, hpush n, countEos] using h2
        | senderReport =>
          rw [show specTermination
              (LoopEvent.feed (FeedItem.item PacketItem.senderReport) :: rest) =
              specTermination rest from rfl] at ht
          obtain ⟨h1, h2⟩ := ih n c hrest ht
          exact ⟨by simpa [runLoop] using h1, by simpa [runLoop] using h2⟩
      | err e' => simp [specTermination] at ht
      | closed => simp [specTermination] at ht
    | bus m =>
      cases m with
      | none => simp [specTermination] at ht
      | some msg =>
        cases msg with
        | eos => simp [specTermination] at ht
        | busError c' =>
          simp [specTermination] at ht
          subst ht
          exact ⟨by simp [runLoop], by simp [runLoop, countEos]⟩
        | other =>
          rw [show specTermination
              (LoopEvent.bus (some BusMsg.other) :: rest) =
              specTermination rest from rfl] at ht
          obtain ⟨h1, h2⟩ := ih n c hrest ht
          exact ⟨by simpa [runLoop] using h1, by simpa [runLoop] using h2⟩

/-- C5: with succeeding sink operations and valid stream indices, if the
first terminating event of the merged trace is a feed error `e`, the loop
stops with `FeedError` carrying that same `e` (propagated to the caller by
`return Err`), and if it is a bus `Error{cause}`, the loop stops with
`GraphError` carrying that same cause (propagated by `bail!`); in both
cases `end_of_stream` (finish) is never called. -/
theorem c5_error_termination (streams : List SubStreamDescriptor)
    (sink : SinkBehavior) (events : List LoopEvent) (e c : String)
    (hpush : ∀ m, sink.pushOk m = true) (halloc : ∀ m, sink.allocOk m = true)
    (hev : events.all (eventOk streams) = true) :
    (specTermination events = TermClass.feedErr e →
      loopReason (runLoop streams sink events 0) =
          some (StopReason.feedError e) ∧
        countEos (loopCalls (runLoop streams sink events 0)) = 0) ∧
      (specTermination events = TermClass.graphErr c →
        loopReason (runLoop streams sink events 0) =
            some (StopReason.graphError c) ∧
          countEos (loopCalls (runLoop streams sink events 0)) = 0) := by
  constructor
  · intro ht
    obtain ⟨h1, h2⟩ :=
      runLoop_feedError_of_spec streams sink hpush halloc events 0 e hev ht
    exact ⟨by simp [loopReason, h1], h2⟩
  · intro ht
    obtain ⟨h1, h2⟩ :=
      runLoop_graphError_of_spec streams sink hpush halloc events 0 c hev ht
    exact ⟨by simp [loopReason, h1], h2⟩

/-- C5 witness: the theorem's feed-error half at a concrete single-event
error trace. -/
theorem c5_witness :
    loopReason (runLoop [] allOkSink
        [LoopEvent.feed (FeedItem.err ("X"))] 0) =
        some (StopReason.feedError ("X")) ∧
      countEos (loopCalls (runLoop [] allOkSink
        [LoopEvent.feed (FeedItem.err ("X"))] 0)) = 0 :=
  (c5_error_termination [] allOkSink [LoopEvent.feed (FeedItem.err ("X"))]
    ("X") ("Y") (fun _ => rfl) (fun _ => rfl) (by decide)).1 rfl

theorem buildCaps_ne_initialCaps (rate : Nat) (stream : SubStreamDescriptor) :
    buildCaps rate stream ≠ initialCaps := by
  intro h
  cases hch : stream.channels with
  | none => simp [buildCaps, hch, initialCaps] at h
  | some ch => simp [buildCaps, hch, initialCaps] at h

theorem appSrc_effects_refine (streams : List SubStreamDescriptor)
    (sink : SinkBehavior) :
    ∀ events n (cur₁ : Caps) (cur₂ : Option Caps),
      (cur₂ = some cur₁ ∨ (cur₁ = initialCaps ∧ cur₂ = none)) →
      appSrcConfigures cur₁ (runLoop streams sink events n).snd =
        specLoopEffects streams sink events n cur₂ := by
  intro events
  induction events with
  | nil => intro n cur₁ cur₂ _; simp [runLoop, specLoopEffects, appSrcConfigures]
  | cons e rest ih =>
    intro n cur₁ cur₂ hrel
    cases e with
    | feed f =>
      cases f with
      | item p =>
        cases p with
        | rtpPacket sid raw rate =>
          cases hs : streams[sid]? with
          | none => simp [runLoop, specLoopEffects, hs, appSrcConfigures]
          | some stream =>
            cases ha : sink.allocOk n with
            | false => simp [runLoop, specLoopEffects, hs, ha, appSrcConfigures]
            | true =>
              cases hp : sink.pushOk n with
              | false =>
                rcases hrel with h2 | ⟨h1, h2⟩
                · subst h2
                  by_cases hd : buildCaps rate stream = cur₁
                  · simp [runLoop, specLoopEffects, hs, ha, hp,
                      appSrcConfigures, hd]
                  · simp [runLoop, specLoopEffects, hs, ha, hp,
                      appSrcConfigures, hd, Ne.symm hd]
                · subst h1
                  subst h2
                  have hne := buildCaps_ne_initialCaps rate stream
                  simp [runLoop, specLoopEffects, hs, ha, hp,
                    appSrcConfigures, hne]
              | true =>
                rcases hrel with h2 | ⟨h1, h2⟩
                · subst h2
                  by_cases hd : buildCaps rate stream = cur₁
                  · have hrec := ih (n + 1) cur₁ (some cur₁) (Or.inl rfl)
                    simp [runLoop, specLoopEffects, hs, ha, hp,
                      appSrcConfigures, hd] at hrec ⊢
                    simpa [hd] using hrec
                  · have hrec := ih (n + 1) (buildCaps rate stream)
                      (some (buildCaps rate stream)) (Or.inl rfl)
                    simp [runLoop, specLoopEffects, hs, ha, hp,
                      appSrcConfigures, hd, Ne.symm hd]
                    exact hrec
                · subst h1
                  subst h2
                  have hne := buildCaps_ne_initialCaps rate stream
                  have hrec := ih (n + 1) (buildCaps rate stream)
                    (some (buildCaps rate stream)) (Or.inl rfl)
                  simp [runLoop, specLoopEffects, hs, ha, hp,
                    appSrcConfigures, hne]
                  exact hrec
        | senderReport => simpa [runLoop, specLoopEffects] using ih n cur₁ cur₂ hrel
      | err e => simp [runLoop, specLoopEffects, appSrcConfigures]
      | closed =>
        cases he : sink.eosOk with
        | false => simp [runLoop, specLoopEffects, he, appSrcConfigures]
        | true => simp [runLoop, specLoopEffects, he, appSrcConfigures]
    | bus m =>
      cases m with
      | none => simp [runLoop, specLoopEffects, appSrcConfigures]
      | some msg =>
        cases msg with
        | eos => simp [runLoop, specLoopEffects, appSrcConfigures]
        | busError c => simp [runLoop, specLoopEffects, appSrcConfigures]
        | other => simpa [runLoop, specLoopEffects] using ih n cur₁ cur₂ hrel

/-- C6: the sequence of effective events reaching the graph — obtained
from the loop's raw `set_caps`/`push_buffer`/`end_of_stream` calls through
the appsrc's caps deduplication, starting from the bare `application/x-rtp`
caps installed at line 120 — equals the spec's prescribed discipline: for
every DataPacket, build the CapabilityDescriptor fresh and configure it
before the corresponding push exactly when it differs from the previously
configured one, with nothing previously configured at the start (so the
very first packet always configures). -/
theorem c6_configure_exactly_when_descriptor_changes
    (streams : List SubStreamDescriptor) (sink : SinkBehavior)
    (events : List LoopEvent) :
    appSrcConfigures initialCaps (loopCalls (runLoop streams sink events 0)) =
      specLoopEffects streams sink events 0 none :=
  appSrc_effects_refine streams sink events 0 initialCaps none (Or.inr ⟨rfl, rfl⟩)
